import Mathlib

/-!
Verification of the local state-synchronization and domain-mutation layer of
the TokenSightElastic prototype (src/App.js), against its specification.

The JavaScript source is shallowly embedded: JS numbers are modelled as exact
rationals, nullable or possibly-absent fields as Option, JS arrays as lists,
and the stateful collection updates as pure functions from the old collection
to the new one.  Randomly generated id fragments (Math.random().toString(36)
slices) are passed in as explicit string parameters.  The string field
holding the JSON.stringify rendering of a property metadata mapping is
modelled directly as the rendered string.  The human-readable reasoning
string of the valuation service is omitted: no specified property refers
to its content.
-/

/-- A user record: { id, name, phone } (src/App.js line 153). -/
structure User where
  id : String
  name : String
  phone : String
  deriving DecidableEq, Repr

/-- A comparable entry { id, value } attached to a property.  The value is
optional so that entries lacking a value can be modelled (src/App.js 203). -/
structure Comparable where
  id : String
  value : Option ℚ
  deriving DecidableEq, Repr

/-- A property record (src/App.js 185-191).  Fields that JS code guards for
absence (title, address, metadata, estimatedValue, assignedTo) are Options;
metadata is modelled by its stringified (JSON.stringify) form, which is the
only way the code consumes it. -/
structure Property where
  id : String
  title : Option String
  address : Option String
  estimatedValue : Option ℚ
  comparables : List Comparable
  documents : List String
  assignedTo : Option String
  createdAt : String
  metadata : Option String
  deriving DecidableEq, Repr

/-- A minted token (src/App.js 49-54). -/
structure Token where
  id : String
  owner : User
  propertyId : String
  mintedAt : String
  deriving DecidableEq, Repr

/-- Valuation confidence levels (src/App.js 44). -/
inductive Confidence
  | low
  | medium
  deriving DecidableEq, Repr

/-- Result of the mock AI valuation (src/App.js 44), without the
human-readable reasoning string. -/
structure ValuationResult where
  valuation : ℤ
  confidence : Confidence
  deriving DecidableEq, Repr

/-! ### JS string primitives used by the source -/

/-- Model of JS String.prototype.toLowerCase (ASCII letters). -/
def jsToLower (s : String) : String := String.mk (s.data.map Char.toLower)

/-- Model of JS String.prototype.toUpperCase (ASCII letters). -/
def jsToUpper (s : String) : String := String.mk (s.data.map Char.toUpper)

/-- Does the character list start with the given pattern list? -/
def startsWithList : List Char → List Char → Bool
  | _, [] => true
  | [], _ :: _ => false
  | a :: s, b :: q => a == b && startsWithList s q

/-- Model of JS String.prototype.includes: does the pattern occur as a
contiguous segment of the subject? -/
def includesList : List Char → List Char → Bool
  | [], q => startsWithList [] q
  | a :: s, q => startsWithList (a :: s) q || includesList s q

/-- JS s.includes(q) on strings. -/
def jsIncludes (s q : String) : Bool := includesList s.data q.data

/-- Model of JS String.prototype.trim: drop leading and trailing
whitespace. -/
def jsTrim (s : String) : String :=
  String.mk (((s.data.dropWhile Char.isWhitespace).reverse.dropWhile
    Char.isWhitespace).reverse)

/-! ### Mock services (src/App.js 21-56) -/

/-- The filter predicate of mockElasticSearch (src/App.js 27-33): the
normalized query must occur in the lower-cased title, or in the lower-cased
address, or in the lower-cased stringified metadata; absent fields never
match (the JS truthiness guards). -/
def propertyMatches (q : String) (p : Property) : Bool :=
  (match p.title with
    | some t => jsIncludes (jsToLower t) q
    | none => false) ||
  (match p.address with
    | some a => jsIncludes (jsToLower a) q
    | none => false) ||
  (match p.metadata with
    | some m => jsIncludes (jsToLower m) q
    | none => false)

/-- mockElasticSearch (src/App.js 23-34): trim and lower-case the query;
an empty normalized query returns the input unchanged, otherwise filter. -/
def mockElasticSearch (query : String) (properties : List Property) : List Property :=
  let q := jsToLower (jsTrim query)
  if q = "" then properties
  else properties.filter (propertyMatches q)

/-- The base estimate of mockAIValuation (src/App.js 39):
property.estimatedValue || 100000.  A JS falsy value (absent field or the
number 0) falls back to 100000. -/
def baseOf (p : Property) : ℚ :=
  match p.estimatedValue with
  | some v => if v = 0 then 100000 else v
  | none => 100000

/-- The comparables average of mockAIValuation (src/App.js 41):
comps.length ? Math.round(comps.reduce((s,c)=>s+(c.value||0),0)/comps.length) : 0. -/
def compAvgOf (comps : List Comparable) : ℚ :=
  if comps.length = 0 then 0
  else ((round ((comps.map (fun c => c.value.getD 0)).sum / (comps.length : ℚ)) : ℤ) : ℚ)

/-- mockAIValuation (src/App.js 36-45): valuation is
Math.round(base * 0.7 + compAvg * 0.3); confidence is medium when at least
one comparable exists and low otherwise. -/
def mockAIValuation (property : Property) : ValuationResult :=
  let base := baseOf property
  let comps := property.comparables
  let compAvg := compAvgOf comps
  { valuation := round (base * (7 / 10 : ℚ) + compAvg * (3 / 10 : ℚ)),
    confidence := if comps.length = 0 then Confidence.low else Confidence.medium }

/-- mockMintToken (src/App.js 47-56).  The slice of
Math.random().toString(36) is passed in as rand; the token id is the fixed
prefix TOKEN- followed by the upper-cased slice. -/
def mockMintToken (rand : String) (owner : User) (property : Property)
    (mintedAt : String) : Token :=
  { id := "TOKEN-" ++ jsToUpper rand,
    owner := owner,
    propertyId := property.id,
    mintedAt := mintedAt }

/-! ### Session / identity (src/App.js 148-163) -/

/-- Outcome of the signup-or-login flow. -/
inductive LoginOutcome
  | missingFields
  | identityMismatch
  | loggedIn (u : User) (isNew : Bool)
  deriving DecidableEq, Repr

/-- The identity-resolution core of signupOrLogin (src/App.js 150-162):
find a user by phone; if none exists, create and append a new user whose id
is USER- followed by the random slice rand; otherwise require an exact
(case-sensitive) name match.  Returns the outcome together with the updated
users collection. -/
def resolveIdentity (rand name phone : String) (users : List User) :
    LoginOutcome × List User :=
  match users.find? (fun u => u.phone == phone) with
  | none =>
      let newUser : User := { id := "USER-" ++ rand, name := name, phone := phone }
      (LoginOutcome.loggedIn newUser true, users ++ [newUser])
  | some found =>
      if found.name == name then (LoginOutcome.loggedIn found false, users)
      else (LoginOutcome.identityMismatch, users)

/-- signupOrLogin (src/App.js 148-163): the empty-field validation guard in
front of identity resolution. -/
def signupOrLogin (rand name phone : String) (users : List User) :
    LoginOutcome × List User :=
  if name = "" ∨ phone = "" then (LoginOutcome.missingFields, users)
  else resolveIdentity rand name phone users

/-! ### Admin property operations (src/App.js 183-204) -/

/-- The stringified metadata { source: admin-upload } that createProperty
attaches to every new property (src/App.js 190). -/
def adminUploadMetadata : String := "\x7b\"source\":\"admin-upload\"\x7d"

/-- createProperty (src/App.js 183-194).  Fails (returning none and the
unchanged collection) when the title is empty; otherwise builds the new
property, whose id is PROP- followed by the random slice rand, with empty
comparables and documents, assignedTo null when the input is empty, and
inserts it at the head of the collection.  The numeric estimatedValue input
models Number(estimatedValue)||0. -/
def createProperty (rand title address : String) (estimatedValue : ℚ)
    (assignedTo : String) (createdAt : String) (properties : List Property) :
    Option Property × List Property :=
  if title = "" then (none, properties)
  else
    let prop : Property :=
      { id := "PROP-" ++ rand,
        title := some title,
        address := some address,
        estimatedValue := some estimatedValue,
        comparables := [],
        documents := [],
        assignedTo := if assignedTo = "" then none else some assignedTo,
        createdAt := createdAt,
        metadata := some adminUploadMetadata }
    (some prop, prop :: properties)

/-- assignToUser (src/App.js 196-198): set assignedTo on the property whose
id matches, leave every other property unchanged. -/
def assignToUser (propId : String) (userId : Option String)
    (properties : List Property) : List Property :=
  properties.map (fun p =>
    if p.id = propId then { p with assignedTo := userId } else p)

/-- addComparable (src/App.js 200-204): append one comparable entry, whose
id is C- followed by the random slice compRand and whose value is the
(randomly drawn) value, to the comparables of the property whose id
matches; leave every other property unchanged. -/
def addComparable (propId compRand : String) (value : ℚ)
    (properties : List Property) : List Property :=
  properties.map (fun p =>
    if p.id = propId then
      { p with comparables :=
          p.comparables ++ [{ id := "C-" ++ compRand, value := some value }] }
    else p)

/-! ### Substring characterization -/

/-- The pattern q occurs as a contiguous segment of s (the specification
meaning of a substring match). -/
def containsSub (s q : String) : Prop := ∃ l r, s.data = l ++ q.data ++ r

theorem startsWithList_iff (q s : List Char) :
    startsWithList s q = true ↔ ∃ r, s = q ++ r := by
  induction q generalizing s with
  | nil => simp [startsWithList]
  | cons b q ih =>
    cases s with
    | nil => simp [startsWithList]
    | cons a s =>
      simp only [startsWithList, Bool.and_eq_true, beq_iff_eq, ih, List.cons_append,
        List.cons.injEq]
      constructor
      · rintro ⟨hab, r, hr⟩
        exact ⟨r, hab, hr⟩
      · rintro ⟨r, hab, hr⟩
        exact ⟨hab, r, hr⟩

theorem includesList_iff (s q : List Char) :
    includesList s q = true ↔ ∃ l r, s = l ++ q ++ r := by
  induction s with
  | nil =>
    simp only [includesList, startsWithList_iff]
    constructor
    · rintro ⟨r, hr⟩
      exact ⟨[], r, by simpa using hr⟩
    · rintro ⟨l, r, hlr⟩
      have hq : q = [] := by
        have h := hlr.symm
        simp only [List.append_eq_nil] at h
        exact h.1.2
      exact ⟨[], by simp [hq]⟩
  | cons a s ih =>
    simp only [includesList, Bool.or_eq_true, startsWithList_iff, ih]
    constructor
    · rintro (⟨r, hr⟩ | ⟨l, r, hlr⟩)
      · exact ⟨[], r, by simpa using hr⟩
      · exact ⟨a :: l, r, by simp [hlr]⟩
    · rintro ⟨l, r, hlr⟩
      cases l with
      | nil => exact Or.inl ⟨r, by simpa using hlr⟩
      | cons x l =>
        have hx : a = x ∧ s = l ++ q ++ r := by simpa using hlr
        exact Or.inr ⟨l, r, hx.2⟩

theorem jsIncludes_iff (s q : String) :
    jsIncludes s q = true ↔ containsSub s q :=
  includesList_iff s.data q.data

theorem jsToLower_empty_iff (s : String) : jsToLower s = "" ↔ s = "" := by
  obtain ⟨data⟩ := s
  constructor
  · intro h
    have hd : data.map Char.toLower = [] := congrArg String.data h
    have hnil : data = [] := List.map_eq_nil_iff.mp hd
    simp [hnil]
  · intro h
    rw [h]
    rfl

theorem propertyMatches_iff (q : String) (p : Property) :
    propertyMatches q p = true ↔
      ((∃ t, p.title = some t ∧ containsSub (jsToLower t) q)
       ∨ (∃ a, p.address = some a ∧ containsSub (jsToLower a) q)
       ∨ (∃ m, p.metadata = some m ∧ containsSub (jsToLower m) q)) := by
  obtain ⟨pid, pt, pa, pe, pc, pd, pas, pca, pm⟩ := p
  rcases pt with _ | t <;> rcases pa with _ | a <;> rcases pm with _ | m <;>
    simp [propertyMatches, jsIncludes_iff, or_assoc]

/-- The normalized query of mockElasticSearch: trimmed then lower-cased. -/
def normQuery (query : String) : String := jsToLower (jsTrim query)

theorem string_mk_eq_empty_iff (l : List Char) : String.mk l = "" ↔ l = [] := by
  constructor
  · intro h
    exact congrArg String.data h
  · intro h
    rw [h]

theorem jsToLower_empty : jsToLower "" = "" := rfl

theorem jsTrim_eq_empty_iff (s : String) :
    jsTrim s = "" ↔ ∀ c ∈ s.data, c.isWhitespace = true := by
  obtain ⟨l⟩ := s
  simp only [jsTrim, string_mk_eq_empty_iff, List.reverse_eq_nil_iff,
    List.dropWhile_eq_nil_iff, List.mem_reverse]
  constructor
  · intro h c hc
    have hsplit : List.takeWhile Char.isWhitespace l
        ++ List.dropWhile Char.isWhitespace l = l :=
      List.takeWhile_append_dropWhile Char.isWhitespace l
    rw [← hsplit] at hc
    rcases List.mem_append.mp hc with htk | hdr
    · exact List.mem_takeWhile_imp htk
    · exact h c hdr
  · intro h x hx
    exact h x ((List.dropWhile_sublist _).subset hx)

theorem C3_search_contract (query : String) (properties : List Property) :
    ((∀ c ∈ query.data, c.isWhitespace = true) →
        mockElasticSearch query properties = properties)
    ∧ ((¬ ∀ c ∈ query.data, c.isWhitespace = true) →
        List.Sublist (mockElasticSearch query properties) properties
        ∧ ∀ p, p ∈ mockElasticSearch query properties ↔
            p ∈ properties ∧
              ((∃ t, p.title = some t ∧ containsSub (jsToLower t) (normQuery query))
               ∨ (∃ a, p.address = some a ∧ containsSub (jsToLower a) (normQuery query))
               ∨ (∃ m, p.metadata = some m ∧ containsSub (jsToLower m) (normQuery query)))) := by
  constructor
  · intro hws
    have h0 : jsTrim query = "" := (jsTrim_eq_empty_iff query).mpr hws
    simp [mockElasticSearch, h0, jsToLower_empty]
  · intro hws
    have h0 : jsTrim query ≠ "" := fun h => hws ((jsTrim_eq_empty_iff query).mp h)
    have h1 : jsToLower (jsTrim query) ≠ "" :=
      fun h => h0 ((jsToLower_empty_iff _).mp h)
    constructor
    · simp only [mockElasticSearch, if_neg h1]
      exact List.filter_sublist _
    · intro p
      simp only [mockElasticSearch, if_neg h1, List.mem_filter,
        propertyMatches_iff, normQuery]

def sampleLoft : Property :=
  { id := "PROP-a1", title := some "Downtown Loft",
    address := some "12 Main Street",
    estimatedValue := some 250000, comparables := [], documents := [],
    assignedTo := none, createdAt := "2026-02-03",
    metadata := some adminUploadMetadata }

theorem C3_search_witness :
    mockElasticSearch "   " [sampleLoft] = [sampleLoft]
    ∧ (sampleLoft ∈ mockElasticSearch "LOFT" [sampleLoft] ↔
        sampleLoft ∈ [sampleLoft] ∧
          ((∃ t, sampleLoft.title = some t
             ∧ containsSub (jsToLower t) (normQuery "LOFT"))
           ∨ (∃ a, sampleLoft.address = some a
             ∧ containsSub (jsToLower a) (normQuery "LOFT"))
           ∨ (∃ m, sampleLoft.metadata = some m
             ∧ containsSub (jsToLower m) (normQuery "LOFT")))) :=
  ⟨(C3_search_contract "   " [sampleLoft]).1 (by decide),
   ((C3_search_contract "LOFT" [sampleLoft]).2 (by decide)).2 sampleLoft⟩

/-! ### Valuation: spec-side definitions and helper lemmas -/

/-- The comparables average as the specification words it: the arithmetic
mean of all comparable values, rounded to the nearest integer, and 0 when
there are no comparables. -/
def compAvgSpec (vs : List ℚ) : ℚ :=
  if vs = [] then 0 else ((round (vs.sum / (vs.length : ℚ)) : ℤ) : ℚ)

theorem comps_values_eq (comps : List Comparable) (vs : List ℚ)
    (hv : comps.map Comparable.value = vs.map some) :
    comps.map (fun c => c.value.getD 0) = vs := by
  have h1 : comps.map (fun c => c.value.getD 0)
      = (comps.map Comparable.value).map (fun o => o.getD 0) := by
    rw [List.map_map]
    rfl
  rw [h1, hv, List.map_map]
  have h2 : ((fun o => Option.getD o 0) ∘ some : ℚ → ℚ) = id := by
    funext v
    rfl
  rw [h2, List.map_id]

theorem compAvgOf_eq_spec (comps : List Comparable) (vs : List ℚ)
    (hv : comps.map Comparable.value = vs.map some) :
    compAvgOf comps = compAvgSpec vs := by
  have hlen : comps.length = vs.length := by
    simpa using congrArg List.length hv
  have hval := comps_values_eq comps vs hv
  unfold compAvgOf compAvgSpec
  rw [hval, hlen]
  by_cases h : vs = []
  · simp [h]
  · rw [if_neg (by simpa [List.length_eq_zero] using h), if_neg h]

/-- Claim C4: for every property, the valuation is
round(0.7 x base + 0.3 x compAvg) with compAvg the rounded arithmetic mean
of the comparable values (0 when there are none), confidence is medium
exactly when a comparable exists; with base estimate 100000 this gives
70000/low with no comparables and 130000/medium with one comparable of
value 200000. -/
theorem C4_valuation_formula (p : Property) (vs : List ℚ)
    (hv : p.comparables.map Comparable.value = vs.map some) :
    (mockAIValuation p).valuation
        = round ((7 / 10 : ℚ) * baseOf p + (3 / 10 : ℚ) * compAvgSpec vs)
    ∧ (mockAIValuation p).confidence
        = (if vs = [] then Confidence.low else Confidence.medium)
    ∧ (p.estimatedValue = some 100000 → vs = [] →
        (mockAIValuation p).valuation = 70000
          ∧ (mockAIValuation p).confidence = Confidence.low)
    ∧ (p.estimatedValue = some 100000 → vs = [200000] →
        (mockAIValuation p).valuation = 130000
          ∧ (mockAIValuation p).confidence = Confidence.medium) := by
  have havg := compAvgOf_eq_spec p.comparables vs hv
  have hlen : p.comparables.length = vs.length := by
    simpa using congrArg List.length hv
  have hzero : (p.comparables.length = 0) ↔ (vs = []) := by
    rw [hlen, List.length_eq_zero]
  have hconf : (mockAIValuation p).confidence
      = (if vs = [] then Confidence.low else Confidence.medium) := by
    simp only [mockAIValuation]
    exact if_congr hzero rfl rfl
  have hform : (mockAIValuation p).valuation
      = round ((7 / 10 : ℚ) * baseOf p + (3 / 10 : ℚ) * compAvgSpec vs) := by
    simp only [mockAIValuation]
    rw [havg]
    exact congrArg round (by ring)
  refine ⟨hform, hconf, ?_, ?_⟩
  · intro he hnil
    have hbase : baseOf p = 100000 := by norm_num [baseOf, he]
    constructor
    · rw [hform, hbase, hnil]
      norm_num [compAvgSpec]
    · rw [hconf, hnil]
      simp
  · intro he hvs
    have hbase : baseOf p = 100000 := by norm_num [baseOf, he]
    constructor
    · rw [hform, hbase, hvs]
      norm_num [compAvgSpec]
    · rw [hconf, hvs]
      simp

/-- A property with base estimate 100000 and no comparables. -/
def baselineProp : Property :=
  { id := "PROP-b1", title := some "Baseline bungalow",
    address := some "4 Sample Ave",
    estimatedValue := some 100000, comparables := [], documents := [],
    assignedTo := none, createdAt := "2026-04-01",
    metadata := some adminUploadMetadata }

/-- The same property after one comparable of value 200000 was attached. -/
def baselinePropWithComp : Property :=
  { baselineProp with comparables := [{ id := "C-w1", value := some 200000 }] }

/-- Witness for C4 at the two concrete examples of the claim. -/
theorem C4_valuation_witness :
    (mockAIValuation baselineProp).valuation = 70000
    ∧ (mockAIValuation baselineProp).confidence = Confidence.low
    ∧ (mockAIValuation baselinePropWithComp).valuation = 130000
    ∧ (mockAIValuation baselinePropWithComp).confidence = Confidence.medium := by
  have h1 := (C4_valuation_formula baselineProp [] (by simp [baselineProp])).2.2.1
    rfl rfl
  have h2 := (C4_valuation_formula baselinePropWithComp [200000]
    (by simp [baselinePropWithComp, baselineProp])).2.2.2 rfl rfl
  exact ⟨h1.1, h1.2, h2.1, h2.2⟩

/-- A property whose estimatedValue is present and explicitly 0, with no
comparables. -/
def propZeroEstimate : Property :=
  { id := "PROP-z0", title := some "Zero estimate lot",
    address := some "9 Null Road",
    estimatedValue := some 0, comparables := [], documents := [],
    assignedTo := none, createdAt := "2026-03-05",
    metadata := some adminUploadMetadata }

/-- Claim C1 is false on the code: for a property whose estimatedValue is
present and explicitly 0 and that has no comparables, mockAIValuation does
not use base 0; the JS expression property.estimatedValue || 100000 treats
the explicit 0 as falsy, so the returned valuation is 70000, not
round(0.7 * 0) = 0. -/
theorem C1_counterexample :
    propZeroEstimate.estimatedValue = some 0
    ∧ propZeroEstimate.comparables = []
    ∧ (mockAIValuation propZeroEstimate).valuation = 70000
    ∧ ¬ (mockAIValuation propZeroEstimate).valuation = 0 := by
  have hb : baseOf propZeroEstimate = 100000 := by
    norm_num [baseOf, propZeroEstimate]
  have hv : (mockAIValuation propZeroEstimate).valuation = 70000 := by
    simp only [mockAIValuation, hb]
    norm_num [propZeroEstimate, compAvgOf]
  exact ⟨rfl, rfl, hv, by rw [hv]; norm_num⟩

/-- Claim C1 amended: a present-and-explicitly-0 estimatedValue is treated
exactly like an absent one — the base falls back to the default 100000 —
so the returned valuation for such a property with no comparables is
round(0.7 * 100000) = 70000. -/
theorem C1_amended_zero_uses_default (p : Property)
    (hz : p.estimatedValue = some 0) (hc : p.comparables = []) :
    baseOf p = 100000 ∧ (mockAIValuation p).valuation = 70000 := by
  have hb : baseOf p = 100000 := by norm_num [baseOf, hz]
  refine ⟨hb, ?_⟩
  simp only [mockAIValuation, hb, hc]
  norm_num [compAvgOf]

/-- Witness for the amended C1. -/
theorem C1_amended_witness :
    baseOf propZeroEstimate = 100000
    ∧ (mockAIValuation propZeroEstimate).valuation = 70000 :=
  C1_amended_zero_uses_default propZeroEstimate rfl rfl

/-- Claim C10: a comparable entry whose value field is absent contributes 0
to the sum behind the comparables average while still counting toward the
divisor, so one value-less comparable gives compAvg = 0 together with
confidence medium. -/
theorem C10_missing_value_counts (p : Property) (cs : List Comparable)
    (c : Comparable) (hcomps : p.comparables = cs ++ [c])
    (hval : c.value = none) :
    (p.comparables.map (fun x => x.value.getD 0)).sum
        = (cs.map (fun x => x.value.getD 0)).sum
    ∧ compAvgOf p.comparables
        = ((round ((cs.map (fun x => x.value.getD 0)).sum
            / ((cs.length + 1 : ℕ) : ℚ)) : ℤ) : ℚ)
    ∧ (cs = [] → compAvgOf p.comparables = 0
        ∧ (mockAIValuation p).confidence = Confidence.medium) := by
  have hsum : (p.comparables.map (fun x => x.value.getD 0)).sum
      = (cs.map (fun x => x.value.getD 0)).sum := by
    rw [hcomps]
    simp [hval]
  have hlen : p.comparables.length = cs.length + 1 := by
    rw [hcomps]
    simp
  have havg : compAvgOf p.comparables
      = ((round ((cs.map (fun x => x.value.getD 0)).sum
          / ((cs.length + 1 : ℕ) : ℚ)) : ℤ) : ℚ) := by
    unfold compAvgOf
    rw [if_neg (by omega : ¬ p.comparables.length = 0), hsum, hlen]
  refine ⟨hsum, havg, ?_⟩
  intro hnil
  constructor
  · rw [havg, hnil]
    norm_num
  · simp only [mockAIValuation]
    rw [if_neg (by omega : ¬ p.comparables.length = 0)]

/-- A property with a single comparable that lacks a value. -/
def missingValueProp : Property :=
  { id := "PROP-m1", title := some "Mystery comp",
    address := some "7 Blank Blvd",
    estimatedValue := some 120000,
    comparables := [{ id := "C-nv", value := none }], documents := [],
    assignedTo := none, createdAt := "2026-05-06",
    metadata := some adminUploadMetadata }

/-- Witness for C10. -/
theorem C10_witness :
    compAvgOf missingValueProp.comparables = 0
    ∧ (mockAIValuation missingValueProp).confidence = Confidence.medium :=
  (C10_missing_value_counts missingValueProp []
    { id := "C-nv", value := none } rfl rfl).2.2 rfl

/-! ### Identity resolution -/

/-- An existing user used by the concrete witnesses. -/
def aliceUser : User := { id := "USER-1", name := "alice", phone := "0700" }

/-- Claim C5: whenever a user with the supplied phone exists but its stored
name differs (case-sensitively) from the supplied name, identity resolution
fails with the identity-mismatch outcome, creates no user, and leaves the
users collection unchanged. -/
theorem C5_identity_mismatch (rand name phone : String) (users : List User)
    (hex : ∃ u ∈ users, u.phone = phone)
    (hne : ∀ u ∈ users, u.phone = phone → u.name ≠ name) :
    resolveIdentity rand name phone users
      = (LoginOutcome.identityMismatch, users) := by
  obtain ⟨u0, hu0, hp0⟩ := hex
  unfold resolveIdentity
  cases hfind : users.find? (fun u => u.phone == phone) with
  | none =>
      exfalso
      have h := List.find?_eq_none.mp hfind u0 hu0
      simp [hp0] at h
  | some found =>
      have hmem := List.mem_of_find?_eq_some hfind
      have hpred := List.find?_some hfind
      have hphone : found.phone = phone := by simpa using hpred
      have hname : found.name ≠ name := hne found hmem hphone
      simp [hname]

/-- Witness for C5: logging in as bob with the phone of the stored alice. -/
theorem C5_witness :
    resolveIdentity "zz99zz" "bob" "0700" [aliceUser]
      = (LoginOutcome.identityMismatch, [aliceUser]) :=
  C5_identity_mismatch "zz99zz" "bob" "0700" [aliceUser]
    ⟨aliceUser, by simp, rfl⟩ (by decide)

/-- Claim C6: for a phone value carried by no existing user, identity
resolution appends exactly one new user holding the supplied name and phone
and the freshly generated id, returns it flagged new, and the fresh id is
distinct from every existing user id whenever the generated fragment is
fresh. -/
theorem C6_new_user (rand name phone : String) (users : List User)
    (hphone : ∀ u ∈ users, u.phone ≠ phone)
    (hid : ∀ u ∈ users, u.id ≠ "USER-" ++ rand) :
    (resolveIdentity rand name phone users
        = (LoginOutcome.loggedIn
             { id := "USER-" ++ rand, name := name, phone := phone } true,
           users ++ [{ id := "USER-" ++ rand, name := name, phone := phone }]))
    ∧ ("USER-" ++ rand) ∉ users.map User.id := by
  have hfind : users.find? (fun u => u.phone == phone) = none := by
    rw [List.find?_eq_none]
    intro u hu
    simpa using hphone u hu
  constructor
  · unfold resolveIdentity
    rw [hfind]
  · intro hmem
    obtain ⟨u, hu, hid2⟩ := List.mem_map.mp hmem
    exact hid u hu hid2

/-- Witness for C6: a new phone creates and appends a fresh user. -/
theorem C6_witness :
    (resolveIdentity "ab12cd" "carol" "0711" [aliceUser]
        = (LoginOutcome.loggedIn
             { id := "USER-" ++ "ab12cd", name := "carol", phone := "0711" } true,
           [aliceUser]
             ++ [{ id := "USER-" ++ "ab12cd", name := "carol", phone := "0711" }]))
    ∧ ("USER-" ++ "ab12cd") ∉ [aliceUser].map User.id :=
  C6_new_user "ab12cd" "carol" "0711" [aliceUser] (by decide) (by decide)

/-! ### Property mutation frame properties -/

/-- Claim C7: assignProperty with an unmatched propertyId returns the
collection unchanged; with a matched propertyId it rewrites only the
assignedTo field of the matching entry, position by position, leaving every
other entry and every other field untouched. -/
theorem C7_assign_frame (propId : String) (userId : Option String)
    (props : List Property) :
    ((∀ p ∈ props, p.id ≠ propId) →
        assignToUser propId userId props = props)
    ∧ (∀ i : ℕ, (assignToUser propId userId props)[i]?
        = (props[i]?).map (fun p =>
            if p.id = propId then { p with assignedTo := userId } else p))
    ∧ (∀ p ∈ props, p.id ≠ propId → p ∈ assignToUser propId userId props) := by
  refine ⟨?_, ?_, ?_⟩
  · intro h
    unfold assignToUser
    have h2 : ∀ p ∈ props,
        (if p.id = propId then { p with assignedTo := userId } else p) = id p := by
      intro p hp
      rw [if_neg (h p hp)]
      rfl
    rw [List.map_congr_left h2, List.map_id]
  · intro i
    unfold assignToUser
    rw [List.getElem?_map]
  · intro p hp hne
    unfold assignToUser
    exact List.mem_map.mpr ⟨p, hp, by rw [if_neg hne]⟩

/-- Witness for C7: assigning against an id that matches nothing. -/
theorem C7_witness :
    assignToUser "PROP-none" (some "USER-1") [baselineProp] = [baselineProp]
    ∧ baselineProp ∈ assignToUser "PROP-none" (some "USER-1") [baselineProp] :=
  ⟨(C7_assign_frame "PROP-none" (some "USER-1") [baselineProp]).1 (by decide),
   (C7_assign_frame "PROP-none" (some "USER-1") [baselineProp]).2.2
     baselineProp (List.mem_singleton.mpr rfl) (by decide)⟩

/-- Claim C2: addComparable appends exactly one entry, with the generated
id and the given value, to the end of the comparable sequence of the
matching property (position by position, other entries untouched); two
calls append the two entries at the end in call order; unmatched
collections are unchanged. -/
theorem C2_addComparable_append (propId c1 c2 : String) (v1 v2 : ℚ)
    (props : List Property) :
    (∀ i : ℕ, (addComparable propId c1 v1 props)[i]?
        = (props[i]?).map (fun p =>
            if p.id = propId then
              { p with comparables :=
                  p.comparables ++ [{ id := "C-" ++ c1, value := some v1 }] }
            else p))
    ∧ addComparable propId c2 v2 (addComparable propId c1 v1 props)
        = props.map (fun p =>
            if p.id = propId then
              { p with comparables :=
                  p.comparables
                    ++ [{ id := "C-" ++ c1, value := some v1 },
                        { id := "C-" ++ c2, value := some v2 }] }
            else p)
    ∧ ((∀ p ∈ props, p.id ≠ propId) →
        addComparable propId c1 v1 props = props) := by
  refine ⟨?_, ?_, ?_⟩
  · intro i
    unfold addComparable
    rw [List.getElem?_map]
  · unfold addComparable
    rw [List.map_map]
    apply List.map_congr_left
    intro p hp
    simp only [Function.comp]
    by_cases h : p.id = propId
    · simp [h]
    · simp [h]
  · intro h
    unfold addComparable
    have h2 : ∀ p ∈ props,
        (if p.id = propId then
          { p with comparables :=
              p.comparables ++ [{ id := "C-" ++ c1, value := some v1 }] }
         else p) = id p := by
      intro p hp
      rw [if_neg (h p hp)]
      rfl
    rw [List.map_congr_left h2, List.map_id]

/-- Witness for C2: two comparables appended in call order to the matching
property, and a non-matching call leaving the collection unchanged. -/
theorem C2_witness :
    addComparable "PROP-b1" "w2" 180000
        (addComparable "PROP-b1" "w1" 160000 [baselineProp])
      = [{ baselineProp with comparables :=
            [{ id := "C-" ++ "w1", value := some 160000 },
             { id := "C-" ++ "w2", value := some 180000 }] }]
    ∧ addComparable "PROP-zz" "w1" 160000 [baselineProp] = [baselineProp] := by
  constructor
  · rw [(C2_addComparable_append "PROP-b1" "w1" "w2" 160000 180000
      [baselineProp]).2.1]
    simp [baselineProp]
  · exact (C2_addComparable_append "PROP-zz" "w1" "w2" 160000 180000
      [baselineProp]).2.2 (by decide)

/-! ### Property creation -/

/-- Claim C8: createProperty fails on an empty title and leaves the
collection unchanged; on a non-empty title it inserts exactly one new
property at the head of the collection, with the generated id (unique when
the generated fragment is fresh), empty comparables and documents, and a
null assignedTo when none was supplied. -/
theorem C8_createProperty (rand title address : String) (ev : ℚ)
    (assignedTo createdAt : String) (props : List Property) :
    (title = "" →
        createProperty rand title address ev assignedTo createdAt props
          = (none, props))
    ∧ (title ≠ "" →
        ("PROP-" ++ rand) ∉ props.map Property.id →
        ∃ prop,
          createProperty rand title address ev assignedTo createdAt props
              = (some prop, prop :: props)
          ∧ prop.id = "PROP-" ++ rand
          ∧ prop.id ∉ props.map Property.id
          ∧ prop.title = some title
          ∧ prop.comparables = []
          ∧ prop.documents = []
          ∧ (assignedTo = "" → prop.assignedTo = none)) := by
  constructor
  · intro h
    unfold createProperty
    rw [if_pos h]
  · intro h hid
    refine ⟨{ id := "PROP-" ++ rand, title := some title,
              address := some address, estimatedValue := some ev,
              comparables := [], documents := [],
              assignedTo := if assignedTo = "" then none else some assignedTo,
              createdAt := createdAt, metadata := some adminUploadMetadata },
      ?_, rfl, hid, rfl, rfl, rfl, ?_⟩
    · unfold createProperty
      rw [if_neg h]
    · intro ha
      rw [if_pos ha]

/-- Witness for C8: an empty title is rejected without touching the
collection; a non-empty title prepends the new property. -/
theorem C8_witness :
    createProperty "q1w2e3" "" "2 Quay Street" 90000 "" "2026-06-07"
        [baselineProp]
      = (none, [baselineProp])
    ∧ ∃ prop,
        createProperty "q1w2e3" "Harbor flat" "2 Quay Street" 90000 ""
            "2026-06-07" [baselineProp]
            = (some prop, prop :: [baselineProp])
        ∧ prop.id = "PROP-" ++ "q1w2e3"
        ∧ prop.id ∉ [baselineProp].map Property.id
        ∧ prop.title = some "Harbor flat"
        ∧ prop.comparables = []
        ∧ prop.documents = []
        ∧ (("" : String) = "" → prop.assignedTo = none) :=
  ⟨(C8_createProperty "q1w2e3" "" "2 Quay Street" 90000 "" "2026-06-07"
      [baselineProp]).1 rfl,
   (C8_createProperty "q1w2e3" "Harbor flat" "2 Quay Street" 90000 ""
      "2026-06-07" [baselineProp]).2 (by decide) (by decide)⟩

/-! ### Token minting -/

/-- Lower-case base-36 characters: the digits 0-9 and letters a-z that the
fractional digits of Math.random().toString(36) consist of. -/
def isBase36Lower (c : Char) : Prop :=
  (48 ≤ c.toNat ∧ c.toNat ≤ 57) ∨ (97 ≤ c.toNat ∧ c.toNat ≤ 122)

/-- Upper-case alphanumeric characters: the digits 0-9 and letters A-Z. -/
def isUpperAlnum (c : Char) : Prop :=
  (48 ≤ c.toNat ∧ c.toNat ≤ 57) ∨ (65 ≤ c.toNat ∧ c.toNat ≤ 90)

instance (c : Char) : Decidable (isBase36Lower c) := by
  unfold isBase36Lower
  infer_instance

instance (c : Char) : Decidable (isUpperAlnum c) := by
  unfold isUpperAlnum
  infer_instance

theorem char_toNat_ofNat_small (n : ℕ) (h : n < 55296) :
    (Char.ofNat n).toNat = n := by
  unfold Char.ofNat
  rw [dif_pos (Or.inl h)]
  rfl

theorem toUpper_toNat_digit (c : Char) (h : 48 ≤ c.toNat ∧ c.toNat ≤ 57) :
    (Char.toUpper c).toNat = c.toNat := by
  unfold Char.toUpper
  rw [if_neg (by omega)]

theorem toUpper_toNat_letter (c : Char) (h : 97 ≤ c.toNat ∧ c.toNat ≤ 122) :
    (Char.toUpper c).toNat = c.toNat - 32 := by
  unfold Char.toUpper
  rw [if_pos h]
  exact char_toNat_ofNat_small _ (by omega)

theorem toUpper_upperAlnum (c : Char) (hc : isBase36Lower c) :
    isUpperAlnum (Char.toUpper c) := by
  rcases hc with h | h
  · exact Or.inl (by rw [toUpper_toNat_digit c h]; exact h)
  · exact Or.inr (by rw [toUpper_toNat_letter c h]; omega)

theorem toUpper_inj_base36 (c d : Char) (hc : isBase36Lower c)
    (hd : isBase36Lower d) (h : Char.toUpper c = Char.toUpper d) : c = d := by
  have hn : (Char.toUpper c).toNat = (Char.toUpper d).toNat :=
    congrArg Char.toNat h
  have heq : c.toNat = d.toNat := by
    rcases hc with h1 | h1 <;> rcases hd with h2 | h2
    · rw [toUpper_toNat_digit c h1, toUpper_toNat_digit d h2] at hn
      exact hn
    · rw [toUpper_toNat_digit c h1, toUpper_toNat_letter d h2] at hn
      omega
    · rw [toUpper_toNat_letter c h1, toUpper_toNat_digit d h2] at hn
      omega
    · rw [toUpper_toNat_letter c h1, toUpper_toNat_letter d h2] at hn
      omega
  exact Char.eq_of_val_eq (UInt32.toNat.inj (by simpa [Char.toNat] using heq))

theorem map_toUpper_inj (l1 l2 : List Char)
    (h1 : ∀ c ∈ l1, isBase36Lower c) (h2 : ∀ c ∈ l2, isBase36Lower c)
    (h : l1.map Char.toUpper = l2.map Char.toUpper) : l1 = l2 := by
  induction l1 generalizing l2 with
  | nil =>
    cases l2 with
    | nil => rfl
    | cons b t => simp at h
  | cons a s ih =>
    cases l2 with
    | nil => simp at h
    | cons b t =>
      simp only [List.map_cons, List.cons.injEq] at h
      have hab : a = b :=
        toUpper_inj_base36 a b (h1 a (by simp)) (h2 b (by simp)) h.1
      have hst : s = t :=
        ih t (fun c hc => h1 c (List.mem_cons_of_mem a hc))
          (fun c hc => h2 c (List.mem_cons_of_mem b hc)) h.2
      rw [hab, hst]

theorem jsToUpper_inj_base36 (r1 r2 : String)
    (h1 : ∀ c ∈ r1.data, isBase36Lower c) (h2 : ∀ c ∈ r2.data, isBase36Lower c)
    (h : jsToUpper r1 = jsToUpper r2) : r1 = r2 := by
  have hd : r1.data.map Char.toUpper = r2.data.map Char.toUpper :=
    congrArg String.data h
  exact String.ext (map_toUpper_inj r1.data r2.data h1 h2 hd)

/-- One invocation of the minting service in a run: the random fragment
drawn for it together with the owner, property, and timestamp. -/
structure MintInput where
  rand : String
  owner : User
  property : Property
  mintedAt : String

/-- A run of mint invocations. -/
def mintRun (inputs : List MintInput) : List Token :=
  inputs.map (fun i => mockMintToken i.rand i.owner i.property i.mintedAt)

/-- Claim C9: whenever the random fragments drawn in a run are base-36
strings and pairwise distinct, every minted token id is non-empty, consists
of the fixed prefix TOKEN- followed by the upper-cased alphanumeric
fragment, and all ids of the run are pairwise distinct. -/
theorem C9_mint_ids (inputs : List MintInput)
    (hb : ∀ i ∈ inputs, ∀ c ∈ i.rand.data, isBase36Lower c)
    (hnd : (inputs.map MintInput.rand).Nodup) :
    ((mintRun inputs).map Token.id).Nodup
    ∧ ∀ i ∈ inputs,
        (mockMintToken i.rand i.owner i.property i.mintedAt).id ≠ ""
        ∧ (mockMintToken i.rand i.owner i.property i.mintedAt).id
            = "TOKEN-" ++ jsToUpper i.rand
        ∧ ∀ c ∈ (jsToUpper i.rand).data, isUpperAlnum c := by
  constructor
  · have hids : (mintRun inputs).map Token.id
        = (inputs.map MintInput.rand).map (fun r => "TOKEN-" ++ jsToUpper r) := by
      unfold mintRun mockMintToken
      rw [List.map_map, List.map_map]
      rfl
    rw [hids]
    apply List.Nodup.map_on ?_ hnd
    intro x hx y hy hxy
    obtain ⟨ix, hix, hrx⟩ := List.mem_map.mp hx
    obtain ⟨iy, hiy, hry⟩ := List.mem_map.mp hy
    have hbx : ∀ c ∈ x.data, isBase36Lower c := by
      rw [← hrx]
      exact hb ix hix
    have hby : ∀ c ∈ y.data, isBase36Lower c := by
      rw [← hry]
      exact hb iy hiy
    have hup : jsToUpper x = jsToUpper y := by
      have hd := congrArg String.data hxy
      simp only [String.data_append] at hd
      exact String.ext (List.append_cancel_left hd)
    exact jsToUpper_inj_base36 x y hbx hby hup
  · intro i hi
    refine ⟨?_, rfl, ?_⟩
    · intro h
      have hd : ("TOKEN-" ++ jsToUpper i.rand).data = [] :=
        congrArg String.data h
      rw [String.data_append] at hd
      exact absurd (List.append_eq_nil.mp hd).1 (by decide)
    · intro c hc
      have hdata : (jsToUpper i.rand).data = i.rand.data.map Char.toUpper := rfl
      rw [hdata] at hc
      obtain ⟨c0, hc0, hup⟩ := List.mem_map.mp hc
      rw [← hup]
      exact toUpper_upperAlnum c0 (hb i hi c0 hc0)

/-- Concrete mint inputs for the witness. -/
def mintInput1 : MintInput :=
  { rand := "k3j9x2a", owner := aliceUser, property := baselineProp,
    mintedAt := "2026-07-08T10:00:00.000Z" }

/-- A second concrete mint input with a different random fragment. -/
def mintInput2 : MintInput :=
  { rand := "0a1b2c3", owner := aliceUser, property := baselineProp,
    mintedAt := "2026-07-08T10:05:00.000Z" }

/-- Witness for C9: a run of two mints with distinct fragments yields
distinct non-empty ids. -/
theorem C9_witness :
    ((mintRun [mintInput1, mintInput2]).map Token.id).Nodup
    ∧ (mockMintToken mintInput1.rand mintInput1.owner mintInput1.property
        mintInput1.mintedAt).id ≠ "" := by
  have h := C9_mint_ids [mintInput1, mintInput2] (by decide) (by decide)
  exact ⟨h.1, (h.2 mintInput1 (List.mem_cons_self _ _)).1⟩
